import Mathlib

/-!
# Card-Scraper: shallow embedding and verification of the spec's claims

This file embeds, in Lean 4, the core logic of the Card-Scraper Go
application (price normalization, offer extraction, criteria matching,
the retry ladder of the scraper, card-detail enrichment, and the
`AddCard` deduplication logic), and proves or refutes the claims of the
natural-language specification against that embedding.

Modelling conventions:
* Go `float64` price values are modelled as exact rationals (`ℚ`): every
  price manipulated by the code is produced by parsing a short decimal
  string, and the behaviours at issue (separator handling, truncation by
  the regex, parse failure) are decided entirely at the string level,
  before any floating-point rounding.
* Strings are Go strings; character classes (`\d`, `\s`) are the ASCII
  classes Go's and JS's regexes use on this data.
* Browser automation is impure; it is modelled by explicit "environment"
  records giving the outcome of each navigation/extraction step, and the
  control flow of the Go functions is reproduced over those records.
  The Go scraping functions are additionally instrumented to return the
  ordered trace of (mode, load-depth) attempts they perform.
* Timestamps, logging and the SQL layer are elided: the card store is a
  list of records, and SQL queries keyed by `card_url` / `id` are the
  corresponding list lookups/updates.
-/

namespace CardScraper

/-! ## Data model (from `app.go`)

`CardOffer`, `ScrapedCardInfo`, `AddCardRequest` and `Card` mirror the Go
structs of the same names.  Go field names are `Mint`, `Language`,
`Edition`, `Price`, `PriceNum`, `Rarity`, `SetName`, …; they are kept in
lowerCamelCase here (`Type` is not a legal Lean field name, it becomes
`cardType`).  The `AddedAt`/`LastUpdated` timestamp strings of `Card` are
omitted (wall-clock time is out of scope of every claim). -/

structure CardOffer where
  mint : String
  language : String
  edition : Bool
  price : String
  priceNum : ℚ
  rarity : String
  setName : String
deriving Repr, DecidableEq

structure ScrapedCardInfo where
  name : String
  set : String
  rarity : String
  price : String
  priceNum : ℚ
  imageURL : String
  offers : List CardOffer
deriving Repr, DecidableEq

structure AddCardRequest where
  url : String
  cardType : String
  quality : String
  language : String
  edition : Bool
deriving Repr, DecidableEq

structure Card where
  id : ℕ
  name : String
  set : String
  rarity : String
  price : String
  priceNum : ℚ
  imageURL : String
  cardURL : String
  cardType : String
  quality : String
  language : String
  edition : Bool
  totalOffers : ℕ
deriving Repr, DecidableEq

/-! ## Price normalizer (`extractNumericPrice`, `app.go:567-607`)

The Go code matches `priceText` against the regexp

    (\d{1,3}(?:[.,]\d{3})*(?:[.,]\d{1,2})?)

with `FindStringSubmatch` (leftmost-first, Perl-style, greedy).  Because
every sub-pattern after the leading `\d{1,3}` may match the empty string,
the greedy search never backtracks: the match is computed by taking, from
the first digit of the text, up to three digits, then as many
`[.,]ddd` groups as possible, then one optional `[.,]d` or `[.,]dd`
tail.  `findPriceToken` below implements exactly that.  (`\d` in Go's
regexp is the ASCII class `[0-9]`, which is `Char.isDigit`.) -/

def isSep (c : Char) : Bool := c = '.' || c = ','

/-- Greedy `\d{1,n}`: take up to `n` leading digits. -/
def takeUpToDigits : ℕ → List Char → List Char × List Char
  | 0, l => ([], l)
  | _ + 1, [] => ([], [])
  | n + 1, c :: r =>
      if c.isDigit then
        let p := takeUpToDigits n r
        (c :: p.1, p.2)
      else ([], c :: r)

/-- Greedy `(?:[.,]\d{3})*`: consume as many separator-plus-three-digit
groups as possible. -/
def starGroups : List Char → List Char × List Char
  | c :: d₁ :: d₂ :: d₃ :: r =>
      if isSep c && d₁.isDigit && d₂.isDigit && d₃.isDigit then
        let p := starGroups r
        (c :: d₁ :: d₂ :: d₃ :: p.1, p.2)
      else ([], c :: d₁ :: d₂ :: d₃ :: r)
  | l => ([], l)

/-- Greedy `(?:[.,]\d{1,2})?`: one optional separator followed by one or
two digits. -/
def optDec : List Char → List Char
  | c :: d₁ :: d₂ :: _ =>
      if isSep c && d₁.isDigit then
        if d₂.isDigit then [c, d₁, d₂] else [c, d₁]
      else []
  | [c, d₁] => if isSep c && d₁.isDigit then [c, d₁] else []
  | _ => []

/-- The full pattern, anchored at the current position (which must hold a
digit for the pattern to match at all). -/
def matchFrom (l : List Char) : List Char :=
  let p₁ := takeUpToDigits 3 l
  let p₂ := starGroups p₁.2
  p₁.1 ++ p₂.1 ++ optDec p₂.2

/-- Leftmost match of the price regexp: the pattern starts with `\d{1,3}`,
so the leftmost feasible start position is the first digit of the text. -/
def findPriceToken : List Char → Option (List Char)
  | [] => none
  | c :: r => if c.isDigit then some (matchFrom (c :: r)) else findPriceToken r

/-- Go `strings.Replace(s, old, new, 1)` for single characters. -/
def replaceFirst (a b : Char) : List Char → List Char
  | [] => []
  | c :: r => if c = a then b :: r else c :: replaceFirst a b r

/-- The separator-normalization branch chain of `extractNumericPrice`
(`app.go:579-595`), operating on the captured token; the original text is
also consulted (the lone-dot branch checks the whole `priceText` for a
comma, not just the match). -/
def goFormatPrice (tok orig : List Char) : List Char :=
  if tok.contains '.' && tok.contains ',' then
    -- both separators present: drop every '.', turn the first ',' into '.'
    replaceFirst ',' '.' (tok.filter (· ≠ '.'))
  else if tok.count '.' = 1 then
    -- a lone '.': thousands separator iff exactly three digits follow it
    -- and the original text holds no ',' anywhere
    let afterDot := (tok.dropWhile (· ≠ '.')).tail
    if afterDot.length = 3 && !orig.contains ',' then tok.filter (· ≠ '.')
    else tok
  else if tok.contains ',' then
    replaceFirst ',' '.' tok
  else tok

/-- Numeric value of a digit string (most significant first). -/
def digitsVal (l : List Char) : ℕ :=
  l.foldl (fun n c => 10 * n + (c.toNat - 48)) 0

/-- `strconv.ParseFloat`, restricted to the strings `goFormatPrice` can
produce (digits and separators only; no sign, exponent or spaces): it
succeeds exactly when the string is made of digits and at most one `'.'`
and holds at least one digit, and then denotes the evident decimal. -/
def parseFloatQ (l : List Char) : Option ℚ :=
  if l.all (fun c => c.isDigit || c = '.') && l.count '.' ≤ 1 && l.any (·.isDigit) then
    let ip := l.takeWhile (· ≠ '.')
    let fp := (l.dropWhile (· ≠ '.')).tail
    some (mkRat (digitsVal (ip ++ fp)) (10 ^ fp.length))
  else none

/-- `extractNumericPrice` (`app.go:567-607`): capture the leftmost price
token, normalize its separators, parse it; on any failure return 0.0. -/
def extractNumericPrice (priceText : String) : ℚ :=
  match findPriceToken priceText.data with
  | none => 0
  | some tok =>
      match parseFloatQ (goFormatPrice tok priceText.data) with
      | some q => q
      | none => 0

/-! ## Page model and offer extraction (`getInfos`, `app.go:736-955`)

A rendered page is modelled by the data the extraction code reads from
it: the list of `article-row` elements (each yielding, via the in-page
JavaScript, either `null` or a record with a success flag and the raw
field strings), the `innerText` of the `tr` rows of any plain table on
the page, the text of the first `h1` heading (`none` when the heading is
absent or its extraction errors), and the rarity / set strings of the
`.info-list-container` (empty when absent or when their extraction
errors, exactly as in the Go code, which leaves them `""` in that case).
-/

structure RowData where
  success : Bool
  mint : String
  langue : String
  price : String
  rarity : String
  setName : String
  edition : Bool
deriving Repr, DecidableEq

structure Page where
  articleRows : List (Option RowData)
  tableRows : List String
  heading : Option String
  rarityFromPage : String
  setFromPage : String
deriving Repr, DecidableEq

/-- Go `strings.TrimSpace` on the character list. -/
def trimChars (l : List Char) : List Char :=
  ((l.dropWhile Char.isWhitespace).reverse.dropWhile Char.isWhitespace).reverse

/-- Go `strings.TrimSpace`. -/
def trimS (s : String) : String := ⟨trimChars s.data⟩

/-- One `article-row`'s `CardOffer` (`app.go:911-945`): each raw field is
trimmed and the numeric price is computed from the trimmed price text. -/
def rowToOffer (d : RowData) : CardOffer :=
  { mint := trimS d.mint
    language := trimS d.langue
    edition := d.edition
    price := trimS d.price
    priceNum := extractNumericPrice (trimS d.price)
    rarity := trimS d.rarity
    setName := trimS d.setName }

/-- `getInfos` (`app.go:736-955`): count the `article-row` elements; when
there are none, the Go code only logs the hit-counts of a few alternative
selectors and returns the empty list (`app.go:810-831`).  Otherwise every
row is processed in order; a row whose JavaScript extraction returned
`null` or `success=false` is skipped, every other row contributes an
offer (a price that failed to parse gives price 0.0, the row is kept). -/
def getInfos (p : Page) : List CardOffer :=
  if p.articleRows.length = 0 then
    []
  else
    p.articleRows.filterMap fun r =>
      match r with
      | none => none
      | some d => if d.success then some (rowToOffer d) else none

/-! ## The heuristic price-token test of the table-scan strategy

The fallback extraction path (`parseTableRows` / `extractPricesDirectly`,
webview scraper) recognizes a price inside a row's text with the JS
regexp `(\d+[,.]?\d*)\s*€`.  For the claims only the *existence* of a
match in a row matters; existence does not depend on the engine's
backtracking order, and after a maximal digit run only the choices
"no separator" or "separator plus the following maximal digit run"
can reach the `€` (any shorter digit choice leaves a digit under the
`\s*€` tail, which fails).  `hasJSPriceToken` implements that test. -/

def euroAfterSpaces (l : List Char) : Bool :=
  match l.dropWhile Char.isWhitespace with
  | '€' :: _ => true
  | _ => false

/-- Does `\d+[,.]?\d*\s*€` match starting exactly at the head of `l`? -/
def jsPriceAt (l : List Char) : Bool :=
  match l with
  | [] => false
  | c :: _ =>
      c.isDigit &&
        (let rest := l.dropWhile Char.isDigit
         euroAfterSpaces rest ||
           match rest with
           | s :: r => (s = '.' || s = ',') && euroAfterSpaces (r.dropWhile Char.isDigit)
           | [] => false)

/-- Does the row's text contain a `(\d+[,.]?\d*)\s*€` price token? -/
def hasJSPriceToken (s : String) : Bool :=
  s.data.tails.any jsPriceAt

/-! ## Criteria matcher (`findTheCard`, `app.go:957-974`;
`findBestOffer`, `helpers.go:138-152`)

Both functions scan the offer list front to back and return (a pointer to
a copy of) the first offer whose (mint, language, edition) triple equals
the requested one, or `nil` when none does. -/

def findTheCard (donnees : List CardOffer) (quality langue : String)
    (edition : Bool) : Option CardOffer :=
  match donnees with
  | [] => none
  | row :: rest =>
      if row.mint = quality ∧ row.language = langue ∧ row.edition = edition then
        some row
      else findTheCard rest quality langue edition

def findBestOffer (offers : List CardOffer) (quality language : String)
    (edition : Bool) : Option CardOffer :=
  match offers with
  | [] => none
  | offer :: rest =>
      if offer.mint = quality ∧ offer.language = language ∧ offer.edition = edition then
        some offer
      else findBestOffer rest quality language edition

/-! ## Card-detail enrichment (`extractCardDetails`, after the hit)

`extractCardDetails(ctx, url, result, info)` starts from the selected
offer: it stores the one-element list `[*result]` into `info.Offers`
and copies its price fields, then re-reads the page for the display
name (default `"Carte inconnue"` when the `h1` is absent, errored or
empty) and for the set/rarity of `.info-list-container`, preferring the
page value, then the value the offer already carried, then a sentinel —
and it *writes the page values back* into the selected offer
(`result.SetName = setFromPage`, `result.Rarity = rarityFromPage`).
It always returns a nil error.  The model returns the `info` and the
final state of the mutated `result` inside `Except.ok`. -/

def extractCardDetailsCore (p : Page) (result : CardOffer) :
    ScrapedCardInfo × CardOffer :=
  let offersCopy := [result]
  let name :=
    match p.heading with
    | none => "Carte inconnue"
    | some n => if n = "" then "Carte inconnue" else trimS n
  let setFromPage := trimS p.setFromPage
  let rarityFromPage := trimS p.rarityFromPage
  let set :=
    if setFromPage ≠ "" then setFromPage
    else if result.setName ≠ "" then result.setName
    else "Set inconnu"
  let rarity :=
    if rarityFromPage ≠ "" then rarityFromPage
    else if result.rarity ≠ "" then result.rarity
    else "Rareté inconnue"
  let result₁ := if setFromPage ≠ "" then { result with setName := setFromPage } else result
  let result₂ := if rarityFromPage ≠ "" then { result₁ with rarity := rarityFromPage } else result₁
  ({ name := name, set := set, rarity := rarity, price := result.price,
     priceNum := result.priceNum, imageURL := "", offers := offersCopy },
   result₂)

/-- The Go function's single `return info, nil`: the error channel is
always nil, whatever the page looks like. -/
def extractCardDetails (p : Page) (result : CardOffer) :
    Except String (ScrapedCardInfo × CardOffer) :=
  Except.ok (extractCardDetailsCore p result)

/-! ## Acquisition strategy selector

`scrapeCardInfo` dispatches to `scrapeWithMultipleModes` (Windows) or
`scrapeWithStandardMode` (macOS/Linux).  The outcome of one
`launchLoop`/`launchLoopPatient` run is fully determined by the page the
browser produces for a given browser configuration and load depth, so
the environment is modelled as a deterministic oracle mapping the load
depth (`false` = shallow, `true` = expanded / "load more") to the
selected offer, if any, per configuration mode.  Every scraping function
is instrumented to also return the ordered list of attempts it actually
performed. -/

/-- Environment of one browser-configuration mode: whether the browser
connectivity test succeeds, and the criteria-matching outcome of a
`launchLoopPatient` run at each load depth. -/
structure ModeEnv where
  connOK : Bool
  attempt : Bool → Option CardOffer

/-- Environment of the standard (macOS/Linux) path. -/
structure StdEnv where
  connOK : Bool
  connErr : String
  shallow : Option CardOffer
  expanded : Option CardOffer

/-- The `attempts` table of `scrapeWithRetries`: two shallow attempts,
then two "load more" attempts (the delays only pace the loop). -/
def retryLoads : List Bool := [false, false, true, true]

/-- Run attempts in order, stopping at the first hit; returns the trace
of load depths actually attempted and the result. -/
def runAttempts (f : Bool → Option CardOffer) :
    List Bool → List Bool × Option CardOffer
  | [] => ([], none)
  | d :: rest =>
      match f d with
      | some o => ([d], some o)
      | none =>
          let r := runAttempts f rest
          (d :: r.1, r.2)

/-- `scrapeWithRetries`: the four-attempt ladder over one mode. -/
def scrapeWithRetries (f : Bool → Option CardOffer) :
    List Bool × Option CardOffer :=
  runAttempts f retryLoads

/-- The ordered mode list of `scrapeWithMultipleModes`. -/
def windowsModes : List String := ["secure", "permissive", "minimal"]

/-- `attemptScrapeWithMode`: test the browser under the mode's options;
on success run the retry ladder; a miss is the per-mode "aucune carte
trouvée" error; a hit is enriched by `extractCardDetails`. -/
def attemptScrapeWithMode (env : String → ModeEnv) (p : Page) (mode : String) :
    List Bool × Except String (ScrapedCardInfo × CardOffer) :=
  if (env mode).connOK then
    let r := scrapeWithRetries (env mode).attempt
    match r.2 with
    | none => (r.1, Except.error ("aucune carte trouvée avec le mode " ++ mode))
    | some off => (r.1, extractCardDetails p off)
  else
    ([], Except.error ("connexion navigateur impossible en mode " ++ mode))

/-- The fixed message `scrapeWithMultipleModes` returns when every mode
has failed (whether by connection failure or by a criteria miss). -/
def modesExhaustedMsg : String :=
  "impossible de se connecter au navigateur après tous les modes testés. Vérifiez que Chrome ou Edge est installé et accessible"

/-- The loop body of `scrapeWithMultipleModes` over the remaining modes;
the trace tags each attempted load depth with its mode. -/
def scrapeModesGo (env : String → ModeEnv) (p : Page) :
    List String → List (String × Bool) × Except String ScrapedCardInfo
  | [] => ([], Except.error modesExhaustedMsg)
  | m :: rest =>
      let a := attemptScrapeWithMode env p m
      let tagged := a.1.map fun d => (m, d)
      match a.2 with
      | Except.ok v => (tagged, Except.ok v.1)
      | Except.error _ =>
          let r := scrapeModesGo env p rest
          (tagged ++ r.1, r.2)

/-- `scrapeWithMultipleModes` (Windows path): try the modes in order,
return the first success, and the fixed exhaustion message otherwise. -/
def scrapeWithMultipleModes (env : String → ModeEnv) (p : Page) :
    List (String × Bool) × Except String ScrapedCardInfo :=
  scrapeModesGo env p windowsModes

/-- The criteria-echoing error of `scrapeWithStandardMode` (and of
`scrapeCardInfo` in `app.go`): `fmt.Errorf("aucune carte correspondant
aux critères qualité=%s, langue=%s, édition=%t", ...)`. -/
def noMatchMsg (req : AddCardRequest) : String :=
  "aucune carte correspondant aux critères qualité=" ++ req.quality ++
    ", langue=" ++ req.language ++ ", édition=" ++
    (if req.edition then "true" else "false")

/-- `scrapeWithStandardMode` (macOS/Linux path): one configuration; a
shallow `launchLoop`, then, only on a miss, an expanded one; on a double
miss the criteria-echoing error. -/
def scrapeWithStandardMode (env : StdEnv) (p : Page) (req : AddCardRequest) :
    List Bool × Except String ScrapedCardInfo :=
  if env.connOK then
    match env.shallow with
    | some r => ([false], (extractCardDetails p r).map Prod.fst)
    | none =>
        match env.expanded with
        | some r => ([false, true], (extractCardDetails p r).map Prod.fst)
        | none => ([false, true], Except.error (noMatchMsg req))
  else
    ([], Except.error ("impossible de se connecter au navigateur: " ++ env.connErr))

/-! ## `AddCard` and the card store (`app.go:103-167`)

The SQLite table keyed by the unique `card_url` column is modelled as a
list of `Card` records; `getCardByURL` is the `SELECT ... WHERE card_url
= ?` lookup and `moveCard` the `UPDATE cards SET type = ? WHERE id = ?`.
`AddCard` is given the outcome the scraper would produce for the request
(`none` = scraping error; the error-message refinement of the scraping
branch is irrelevant to the store) and the id the insert would allocate.
Its result records whether `scrapeCardInfo` was invoked, the new store,
and the returned card or error. -/

def getCardByURL (db : List Card) (url : String) : Option Card :=
  db.find? fun c => c.cardURL = url

def moveCard (db : List Card) (cardID : ℕ) (newType : String) : List Card :=
  db.map fun c => if c.id = cardID then { c with cardType := newType } else c

def AddCard (db : List Card) (req : AddCardRequest)
    (scrapeOutcome : Option ScrapedCardInfo) (newId : ℕ) :
    Bool × List Card × Except String Card :=
  match getCardByURL db req.url with
  | some existing =>
      if existing.cardType = req.cardType then
        (false, db, Except.error ("cette carte est déjà dans votre " ++ req.cardType))
      else
        (false, moveCard db existing.id req.cardType,
         Except.ok { existing with cardType := req.cardType })
  | none =>
      match scrapeOutcome with
      | none => (true, db, Except.error "erreur lors du scraping")
      | some info =>
          let card : Card :=
            { id := newId, name := info.name, set := info.set, rarity := info.rarity,
              price := info.price, priceNum := info.priceNum, imageURL := info.imageURL,
              cardURL := req.url, cardType := req.cardType, quality := req.quality,
              language := req.language, edition := req.edition,
              totalOffers := info.offers.length }
          (true, db ++ [card], Except.ok card)

/-- The full (mode, load-depth) schedule one configuration mode
contributes to the Windows retry ladder: nothing when its browser test
fails, otherwise the four load depths of `scrapeWithRetries` tagged with
the mode. -/
def modeSchedule (env : String → ModeEnv) (m : String) : List (String × Bool) :=
  if (env m).connOK then [(m, false), (m, false), (m, true), (m, true)] else []

/-- The complete attempt schedule of `scrapeWithMultipleModes`. -/
def fullSchedule (env : String → ModeEnv) : List (String × Bool) :=
  windowsModes.flatMap (modeSchedule env)

/-! ## Concrete fixtures used by the per-claim witnesses and
counterexamples -/

def c2OfferA : CardOffer :=
  { mint := "NM", language := "English", edition := false, price := "2.00€",
    priceNum := 2, rarity := "", setName := "" }

def c2OfferB : CardOffer :=
  { mint := "NM", language := "English", edition := true, price := "5.00€",
    priceNum := 5, rarity := "", setName := "" }

def c2OfferBad : CardOffer :=
  { mint := "LP", language := "English", edition := false, price := "1.00€",
    priceNum := 1, rarity := "", setName := "" }

def c9First : CardOffer :=
  { mint := "NM", language := "English", edition := false, price := "5.00€",
    priceNum := 5, rarity := "", setName := "" }

def c9Second : CardOffer :=
  { mint := "NM", language := "English", edition := false, price := "2.00€",
    priceNum := 2, rarity := "", setName := "" }

/-- A page with no `article-row` element but a plain price table. -/
def c3Page : Page :=
  { articleRows := [], tableRows := ["Condition Langue Prix", "NM Français 3,50 €"],
    heading := some "Carte X", rarityFromPage := "", setFromPage := "" }

def c5Offer : CardOffer :=
  { mint := "NM", language := "English", edition := false, price := "2.00 €",
    priceNum := 2, rarity := "Rare", setName := "Old Set" }

def c5Page : Page :=
  { articleRows := [], tableRows := [], heading := some "Card",
    rarityFromPage := "", setFromPage := "New Set" }

/-- A page with no heading and no metadata at all. -/
def c8Page : Page :=
  { articleRows := [], tableRows := [], heading := none,
    rarityFromPage := "", setFromPage := "" }

def c8Offer : CardOffer :=
  { mint := "NM", language := "English", edition := false, price := "2.00 €",
    priceNum := 2, rarity := "", setName := "" }

/-- A successfully extracted row whose price cell holds no digit. -/
def c7Row : RowData :=
  { success := true, mint := "NM", langue := "English", price := "N/A",
    rarity := "", setName := "", edition := false }

def c7Page : Page :=
  { articleRows := [some c7Row], tableRows := [], heading := none,
    rarityFromPage := "", setFromPage := "" }

/-- Every mode's browser connects; every attempt completes with no
criteria hit. -/
def c4Env : String → ModeEnv := fun _ => { connOK := true, attempt := fun _ => none }

/-- The standard path's browser connects; both load depths miss. -/
def c4StdEnv : StdEnv :=
  { connOK := true, connErr := "", shallow := none, expanded := none }

def c4Page : Page :=
  { articleRows := [], tableRows := [], heading := none,
    rarityFromPage := "", setFromPage := "" }

def c4Req : AddCardRequest :=
  { url := "https://example.test/card", cardType := "collection",
    quality := "NM", language := "English", edition := false }

def c6Offer : CardOffer :=
  { mint := "NM", language := "Français", edition := false, price := "3,50 €",
    priceNum := mkRat 7 2, rarity := "", setName := "" }

/-- Under "secure" the shallow attempt misses and the expanded attempt
hits; later modes would miss everywhere (and must never run). -/
def c6Env : String → ModeEnv := fun m =>
  if m = "secure" then { connOK := true, attempt := fun d => if d then some c6Offer else none }
  else { connOK := true, attempt := fun _ => none }

def c6Page : Page :=
  { articleRows := [], tableRows := [], heading := none,
    rarityFromPage := "", setFromPage := "" }

def c10Existing : Card :=
  { id := 1, name := "Pikachu", set := "Base", rarity := "Rare", price := "2,00 €",
    priceNum := 2, imageURL := "", cardURL := "https://example.test/pika",
    cardType := "wishlist", quality := "NM", language := "English",
    edition := false, totalOffers := 3 }

def c10Db : List Card := [c10Existing]

def c10Req : AddCardRequest :=
  { url := "https://example.test/pika", cardType := "collection",
    quality := "NM", language := "English", edition := false }

/-! ## Helper lemmas -/

theorem mem_of_mem_trimChars {c : Char} {l : List Char} (h : c ∈ trimChars l) :
    c ∈ l := by
  unfold trimChars at h
  rw [List.mem_reverse] at h
  have h₂ : c ∈ (l.dropWhile Char.isWhitespace).reverse :=
    (List.dropWhile_sublist _).mem h
  rw [List.mem_reverse] at h₂
  exact (List.dropWhile_sublist _).mem h₂

theorem findPriceToken_eq_none {l : List Char} (h : ∀ c ∈ l, c.isDigit = false) :
    findPriceToken l = none := by
  induction l with
  | nil => rfl
  | cons c r ih =>
      rw [findPriceToken]
      rw [h c (List.mem_cons_self c r)]
      simp only [Bool.false_eq_true, if_false]
      exact ih fun x hx => h x (List.mem_cons_of_mem _ hx)

theorem extractNumericPrice_eq_zero_of_no_digit {s : String}
    (h : ∀ c ∈ s.data, c.isDigit = false) : extractNumericPrice s = 0 := by
  unfold extractNumericPrice
  rw [findPriceToken_eq_none h]

theorem findTheCard_some {q g : String} {e : Bool} {o : CardOffer} :
    ∀ {l : List CardOffer}, findTheCard l q g e = some o →
      o ∈ l ∧ o.mint = q ∧ o.language = g ∧ o.edition = e := by
  intro l
  induction l with
  | nil => intro h; rw [findTheCard] at h; exact Option.noConfusion h
  | cons a r ih =>
      intro h
      rw [findTheCard] at h
      split_ifs at h with hc
      · cases h
        exact ⟨List.mem_cons_self _ _, hc⟩
      · obtain ⟨hm, hp⟩ := ih h
        exact ⟨List.mem_cons_of_mem _ hm, hp⟩

theorem findTheCard_eq_none_iff {l : List CardOffer} {q g : String} {e : Bool} :
    findTheCard l q g e = none ↔
      ∀ o ∈ l, ¬(o.mint = q ∧ o.language = g ∧ o.edition = e) := by
  induction l with
  | nil => simp [findTheCard]
  | cons a r ih =>
      rw [findTheCard]
      by_cases hc : a.mint = q ∧ a.language = g ∧ a.edition = e
      · simp [hc]
      · simp only [hc, if_false, ih, List.mem_cons]
        constructor
        · rintro hall o (rfl | hmem)
          · exact hc
          · exact hall o hmem
        · intro hall o hmem
          exact hall o (Or.inr hmem)

theorem findBestOffer_eq_findTheCard (l : List CardOffer) (q g : String) (e : Bool) :
    findBestOffer l q g e = findTheCard l q g e := by
  induction l with
  | nil => rfl
  | cons a r ih =>
      rw [findBestOffer, findTheCard]
      split_ifs
      · rfl
      · exact ih

theorem findTheCard_first {l : List CardOffer} {q g : String} {e : Bool} :
    ∀ {i : ℕ} {o : CardOffer}, l.get? i = some o →
      (o.mint = q ∧ o.language = g ∧ o.edition = e) →
      (∀ j, j < i → ∀ u, l.get? j = some u →
        ¬(u.mint = q ∧ u.language = g ∧ u.edition = e)) →
      findTheCard l q g e = some o := by
  induction l with
  | nil => intro i o hget _ _; simp at hget
  | cons a r ih =>
      intro i o hget hm hprev
      cases i with
      | zero =>
          rw [show ((a :: r).get? 0 = some a) from rfl] at hget
          cases hget
          rw [findTheCard, if_pos hm]
      | succ n =>
          have ha : ¬(a.mint = q ∧ a.language = g ∧ a.edition = e) :=
            hprev 0 (Nat.succ_pos n) a rfl
          rw [findTheCard, if_neg ha]
          exact ih hget hm fun j hj u hu => hprev (j + 1) (Nat.succ_lt_succ hj) u hu

/-! ## The claims -/

/-- C1: the spec says `extractNumericPrice` follows the
rightmost-separator disambiguation rule and in particular maps
`"3,50 €" ↦ 3.50`, `"15.000,00€" ↦ 15000.00`, `"1234.56€" ↦ 1234.56`
and `"15.000€" ↦ 15000.00`.  The first, second and fourth examples hold,
but on `"1234.56€"` the code returns 123.0: the capture regexp starts
with `\d{1,3}`, so an unseparated 4-digit integer part is truncated to
its first three digits — contradicting the claim and the function's own
comment, which lists `"1234.56€"` among the handled formats.  The code
also contradicts the rightmost-separator rule itself: on `"1,234.56"`
(rightmost separator a dot) it strips the dots and treats the comma as
decimal, returning 1.23456 instead of 1234.56. -/
theorem C1_extractNumericPrice_on_spec_examples :
    extractNumericPrice "3,50 €" = 3.5 ∧
    extractNumericPrice "15.000,00€" = 15000 ∧
    extractNumericPrice "15.000€" = 15000 ∧
    extractNumericPrice "1234.56€" = 123 ∧
    (123 : ℚ) ≠ 1234.56 ∧
    extractNumericPrice "1,234.56" = 1.23456 ∧
    (1.23456 : ℚ) ≠ 1234.56 := by
  refine ⟨?_, by rfl, by rfl, by rfl, by norm_num, ?_, by norm_num⟩
  · have h : extractNumericPrice "3,50 €" = mkRat 7 2 := by rfl
    rw [h, Rat.mkRat_eq_div]
    norm_num
  · have h : extractNumericPrice "1,234.56" = mkRat 3858 3125 := by rfl
    rw [h, Rat.mkRat_eq_div]
    norm_num

/-- C2: the criteria matcher returns an offer only when its
(condition, language, first-edition) triple equals the criteria exactly;
it returns `none` exactly when no offer matches; `findBestOffer` and
`findTheCard` implement the same matcher (so the result is a function of
the list and the criteria alone — deterministic); and on the spec's
end-to-end example the 2.00€ non-first-edition offer is selected. -/
theorem C2_matcher_exact_triple :
    (∀ (offers : List CardOffer) (q g : String) (e : Bool),
        (∀ o, findTheCard offers q g e = some o →
            o ∈ offers ∧ o.mint = q ∧ o.language = g ∧ o.edition = e) ∧
        (findTheCard offers q g e = none ↔
            ∀ o ∈ offers, ¬(o.mint = q ∧ o.language = g ∧ o.edition = e)) ∧
        findBestOffer offers q g e = findTheCard offers q g e) ∧
    findTheCard [c2OfferA, c2OfferB] "NM" "English" false = some c2OfferA ∧
    c2OfferA.price = "2.00€" := by
  refine ⟨fun offers q g e =>
    ⟨fun o h => findTheCard_some h, findTheCard_eq_none_iff,
      findBestOffer_eq_findTheCard offers q g e⟩, by decide, rfl⟩

theorem C2_matcher_exact_triple_witness :
    c2OfferA ∈ [c2OfferBad, c2OfferA] ∧ c2OfferA.mint = "NM" ∧
    c2OfferA.language = "English" ∧ c2OfferA.edition = false := by
  have h := (C2_matcher_exact_triple.1 [c2OfferBad, c2OfferA] "NM" "English" false).1
  exact h c2OfferA (by decide)

/-- C9: when several offers match the criteria triple, the matcher
returns the one with the smallest index; the tie-break is position in
extraction order, not price (the concrete list returns the 5.00€ first
match, not the cheaper 2.00€ second match). -/
theorem C9_first_match_wins :
    (∀ (offers : List CardOffer) (q g : String) (e : Bool) (i : ℕ) (o : CardOffer),
        offers.get? i = some o →
        (o.mint = q ∧ o.language = g ∧ o.edition = e) →
        (∀ j, j < i → ∀ u, offers.get? j = some u →
            ¬(u.mint = q ∧ u.language = g ∧ u.edition = e)) →
        findTheCard offers q g e = some o ∧ findBestOffer offers q g e = some o) ∧
    findTheCard [c9First, c9Second] "NM" "English" false = some c9First ∧
    findTheCard [c9First, c9Second] "NM" "English" false ≠ some c9Second ∧
    c9First.priceNum = 5 ∧ c9Second.priceNum = 2 := by
  refine ⟨fun offers q g e i o h1 h2 h3 =>
    ⟨findTheCard_first h1 h2 h3, ?_⟩, by decide, by decide, rfl, rfl⟩
  rw [findBestOffer_eq_findTheCard]
  exact findTheCard_first h1 h2 h3

theorem C9_first_match_wins_witness :
    findTheCard [c9First, c9Second] "NM" "English" false = some c9First ∧
    findBestOffer [c9First, c9Second] "NM" "English" false = some c9First := by
  exact C9_first_match_wins.1 [c9First, c9Second] "NM" "English" false 0 c9First rfl
    (by decide) fun j hj u _ => absurd hj (Nat.not_lt_zero j)

/-- C3 (counterexample): a page with zero `article-row` elements but a
plain table row containing a price token (as recognized by the
table-scan strategy's own regexp) still yields the *empty* offer list
from `getInfos` — no fallback strategy fills it, contradicting the
claim that the extractor "still produces a non-empty offer list". -/
theorem C3_counterexample :
    c3Page.articleRows.length = 0 ∧
    "NM Français 3,50 €" ∈ c3Page.tableRows ∧
    hasJSPriceToken "NM Français 3,50 €" = true ∧
    getInfos c3Page = [] := by
  exact ⟨rfl, by decide, by decide, rfl⟩

/-- C3 (amended): whenever the semantic-row strategy finds zero
`article-row` elements, `getInfos` returns the empty offer list — even
when the page contains a plain table of prices — because the
alternative selectors are only counted for logging; the zero-offers
fall-through to a heuristic table scan exists only in the separate
WebView extraction path, not in this extractor. -/
theorem C3_no_fallback_in_getInfos :
    ∀ p : Page, p.articleRows.length = 0 → getInfos p = [] := by
  intro p h
  unfold getInfos
  rw [if_pos h]

theorem C3_no_fallback_in_getInfos_witness : getInfos c3Page = [] :=
  C3_no_fallback_in_getInfos c3Page rfl

/-- C7: an offer row whose price text contains no digit (hence no
numeric substring) gets price value exactly 0.0 from the normalizer,
and is still kept — with that 0.0 price — in the list `getInfos`
produces, so it remains visible to the criteria matcher. -/
theorem C7_priceless_offer_kept_with_zero :
    ∀ (p : Page) (d : RowData), some d ∈ p.articleRows → d.success = true →
      (∀ c ∈ d.price.data, c.isDigit = false) →
      rowToOffer d ∈ getInfos p ∧ (rowToOffer d).priceNum = 0 := by
  intro p d hmem hsucc hnod
  constructor
  · unfold getInfos
    have hne : ¬p.articleRows.length = 0 := by
      intro h0
      rw [List.length_eq_zero] at h0
      rw [h0] at hmem
      exact absurd hmem (List.not_mem_nil _)
    rw [if_neg hne]
    exact List.mem_filterMap.mpr ⟨some d, hmem, by simp [hsucc]⟩
  · show extractNumericPrice (trimS d.price) = 0
    apply extractNumericPrice_eq_zero_of_no_digit
    intro c hc
    exact hnod c (mem_of_mem_trimChars hc)

theorem C7_priceless_offer_kept_with_zero_witness :
    rowToOffer c7Row ∈ getInfos c7Page ∧ (rowToOffer c7Row).priceNum = 0 :=
  C7_priceless_offer_kept_with_zero c7Page c7Row (by decide) rfl (by decide)

/-- C5 (counterexample): enrichment *does* mutate the selected offer
after its creation: on a page whose `.info-list-container` yields the
set label `"New Set"`, `extractCardDetails` overwrites the selected
offer's `SetName` (`result.SetName = setFromPage`), so the offer ends
up with `"New Set"` instead of the `"Old Set"` it carried at creation —
refuting "Offer objects are never mutated after creation". -/
theorem C5_counterexample :
    extractCardDetails c5Page c5Offer =
      Except.ok (extractCardDetailsCore c5Page c5Offer) ∧
    (extractCardDetailsCore c5Page c5Offer).2.setName = "New Set" ∧
    c5Offer.setName = "Old Set" ∧
    ("New Set" : String) ≠ "Old Set" := by
  exact ⟨rfl, by decide, rfl, by decide⟩

/-- C5 (amended): exactly one offer is promoted per successful call —
`info.Offers` is the one-element copy of the selected offer, captured
before enrichment — but enrichment then *writes back* into the selected
`CardOffer`: its `SetName` (resp. `Rarity`) is overwritten with the
page-extracted value whenever that value is non-empty; all its other
fields stay as created. -/
theorem C5_single_promotion_with_writeback :
    ∀ (p : Page) (r : CardOffer),
      (extractCardDetailsCore p r).1.offers = [r] ∧
      (extractCardDetailsCore p r).1.offers.length = 1 ∧
      (extractCardDetailsCore p r).2.setName =
        (if trimS p.setFromPage = "" then r.setName else trimS p.setFromPage) ∧
      (extractCardDetailsCore p r).2.rarity =
        (if trimS p.rarityFromPage = "" then r.rarity else trimS p.rarityFromPage) ∧
      (extractCardDetailsCore p r).2.mint = r.mint ∧
      (extractCardDetailsCore p r).2.language = r.language ∧
      (extractCardDetailsCore p r).2.edition = r.edition ∧
      (extractCardDetailsCore p r).2.price = r.price ∧
      (extractCardDetailsCore p r).2.priceNum = r.priceNum := by
  intro p r
  unfold extractCardDetailsCore
  by_cases hs : trimS p.setFromPage = "" <;> by_cases hr : trimS p.rarityFromPage = "" <;>
    simp [hs, hr]

/-- C8: once an offer is selected, `extractCardDetails` always returns
with a nil error; when the page's first heading is absent (extraction
error) or empty the display name falls back to the `"Carte inconnue"`
sentinel, and the set/rarity labels are taken from the page first, then
from the selected offer's own fields, then default to the
`"Set inconnu"` / `"Rareté inconnue"` sentinels. -/
theorem C8_enrichment_never_fails :
    ∀ (p : Page) (r : CardOffer),
      extractCardDetails p r = Except.ok (extractCardDetailsCore p r) ∧
      (p.heading = none → (extractCardDetailsCore p r).1.name = "Carte inconnue") ∧
      (p.heading = some "" → (extractCardDetailsCore p r).1.name = "Carte inconnue") ∧
      (∀ h, p.heading = some h → h ≠ "" →
        (extractCardDetailsCore p r).1.name = trimS h) ∧
      (trimS p.rarityFromPage ≠ "" →
        (extractCardDetailsCore p r).1.rarity = trimS p.rarityFromPage) ∧
      (trimS p.rarityFromPage = "" → r.rarity ≠ "" →
        (extractCardDetailsCore p r).1.rarity = r.rarity) ∧
      (trimS p.rarityFromPage = "" → r.rarity = "" →
        (extractCardDetailsCore p r).1.rarity = "Rareté inconnue") ∧
      (trimS p.setFromPage ≠ "" →
        (extractCardDetailsCore p r).1.set = trimS p.setFromPage) ∧
      (trimS p.setFromPage = "" → r.setName ≠ "" →
        (extractCardDetailsCore p r).1.set = r.setName) ∧
      (trimS p.setFromPage = "" → r.setName = "" →
        (extractCardDetailsCore p r).1.set = "Set inconnu") := by
  intro p r
  refine ⟨rfl, ?_, ?_, ?_, ?_, ?_, ?_, ?_, ?_, ?_⟩ <;>
    unfold extractCardDetailsCore
  · intro h; rw [h]
  · intro h; rw [h]; simp
  · intro s h hs; rw [h]; simp [hs]
  · intro h; simp [h]
  · intro h hr; simp [h, hr]
  · intro h hr; simp [h, hr]
  · intro h; simp [h]
  · intro h hs; simp [h, hs]
  · intro h hs; simp [h, hs]

theorem scrapeWithRetries_hit0 {f : Bool → Option CardOffer} {o : CardOffer}
    (h : f false = some o) : scrapeWithRetries f = ([false], some o) := by
  simp [scrapeWithRetries, retryLoads, runAttempts, h]

theorem scrapeWithRetries_hit1 {f : Bool → Option CardOffer} {o : CardOffer}
    (h0 : f false = none) (h1 : f true = some o) :
    scrapeWithRetries f = ([false, false, true], some o) := by
  simp [scrapeWithRetries, retryLoads, runAttempts, h0, h1]

theorem scrapeWithRetries_miss {f : Bool → Option CardOffer}
    (h0 : f false = none) (h1 : f true = none) :
    scrapeWithRetries f = ([false, false, true, true], none) := by
  simp [scrapeWithRetries, retryLoads, runAttempts, h0, h1]

theorem scrapeModesGo_all_miss {env : String → ModeEnv} {p : Page} :
    ∀ ms : List String,
      (∀ m ∈ ms, (env m).connOK = true ∧ ∀ d, (env m).attempt d = none) →
      (scrapeModesGo env p ms).2 = Except.error modesExhaustedMsg := by
  intro ms
  induction ms with
  | nil => intro _; rfl
  | cons m rest ih =>
      intro h
      obtain ⟨hc, hmiss⟩ := h m (List.mem_cons_self m rest)
      have hr := scrapeWithRetries_miss (hmiss false) (hmiss true)
      simp only [scrapeModesGo, attemptScrapeWithMode, hc, if_true, hr]
      exact ih fun x hx => h x (List.mem_cons_of_mem _ hx)

theorem C8_enrichment_never_fails_witness :
    extractCardDetails c8Page c8Offer =
      Except.ok (extractCardDetailsCore c8Page c8Offer) ∧
    (extractCardDetailsCore c8Page c8Offer).1.name = "Carte inconnue" ∧
    (extractCardDetailsCore c8Page c8Offer).1.rarity = "Rareté inconnue" ∧
    (extractCardDetailsCore c8Page c8Offer).1.set = "Set inconnu" := by
  obtain ⟨h0, h1, _, _, _, _, h6, _, _, h9⟩ :=
    C8_enrichment_never_fails c8Page c8Offer
  exact ⟨h0, h1 rfl, h6 (by decide) rfl, h9 (by decide) rfl⟩

set_option maxRecDepth 8000 in
/-- C4 (counterexample): a run in which every (mode, load-depth)
attempt completes normally — the browser connects under every mode —
and simply finds no criteria hit still fails with the fixed
browser-unavailability message of `scrapeWithMultipleModes` ("impossible
de se connecter au navigateur après tous les modes testés…"), which is
not the criteria-echoing error and does not even contain the requested
quality: the claim's "never the environment/browser-unavailable error"
is false on the Windows path. -/
theorem C4_counterexample :
    (∀ m ∈ windowsModes, (c4Env m).connOK = true ∧ ∀ d, (c4Env m).attempt d = none) ∧
    (scrapeWithMultipleModes c4Env c4Page).2 = Except.error modesExhaustedMsg ∧
    modesExhaustedMsg ≠ noMatchMsg c4Req ∧
    ¬(c4Req.quality.data <:+: modesExhaustedMsg.data) := by
  exact ⟨by decide, rfl, by decide, by decide⟩

/-- C4 (amended): on the standard (macOS/Linux) path, exhausting both
load depths with a connected browser does fail with the
no-matching-offer error, and that error echoes the requested quality,
language and edition; but on the Windows multi-mode path, exhausting
every (mode, depth) pair yields the fixed browser-connection message,
which carries no criteria. -/
theorem C4_exhaustion_error_paths :
    (∀ (env : StdEnv) (p : Page) (req : AddCardRequest),
        env.connOK = true → env.shallow = none → env.expanded = none →
        (scrapeWithStandardMode env p req).2 = Except.error (noMatchMsg req)) ∧
    (∀ req : AddCardRequest,
        req.quality.data <:+: (noMatchMsg req).data ∧
        req.language.data <:+: (noMatchMsg req).data ∧
        (if req.edition then "true" else "false").data <:+: (noMatchMsg req).data) ∧
    (∀ (env : String → ModeEnv) (p : Page),
        (∀ m ∈ windowsModes, (env m).connOK = true ∧ ∀ d, (env m).attempt d = none) →
        (scrapeWithMultipleModes env p).2 = Except.error modesExhaustedMsg) := by
  refine ⟨?_, ?_, fun env p h => scrapeModesGo_all_miss windowsModes h⟩
  · intro env p req hc hs he
    simp [scrapeWithStandardMode, hc, hs, he]
  · intro req
    refine ⟨⟨"aucune carte correspondant aux critères qualité=".data,
        (", langue=" ++ req.language ++ ", édition=" ++
          (if req.edition then "true" else "false")).data, ?_⟩,
      ⟨("aucune carte correspondant aux critères qualité=" ++ req.quality ++
          ", langue=").data,
        (", édition=" ++ (if req.edition then "true" else "false")).data, ?_⟩,
      ⟨("aucune carte correspondant aux critères qualité=" ++ req.quality ++
          ", langue=" ++ req.language ++ ", édition=").data, [], ?_⟩⟩ <;>
      simp [noMatchMsg, String.data_append, List.append_assoc]

theorem isPrefix_append_left {α : Type} {l₁ l₂ : List α} (a : List α)
    (h : l₁ <+: l₂) : a ++ l₁ <+: a ++ l₂ := by
  obtain ⟨t, ht⟩ := h
  exact ⟨t, by rw [List.append_assoc, ht]⟩

theorem scrapeModesGo_prefixOfSchedule (env : String → ModeEnv) (p : Page) :
    ∀ ms : List String, (scrapeModesGo env p ms).1 <+: ms.flatMap (modeSchedule env) := by
  intro ms
  induction ms with
  | nil => exact List.nil_prefix
  | cons m rest ih =>
      rw [List.flatMap_cons]
      by_cases hc : (env m).connOK
      · rcases h0 : (env m).attempt false with _ | o₀
        · rcases h1 : (env m).attempt true with _ | o₁
          · have hr := scrapeWithRetries_miss h0 h1
            simp only [scrapeModesGo, attemptScrapeWithMode, hc, if_true, hr,
              List.map_cons, List.map_nil, modeSchedule]
            exact isPrefix_append_left _ ih
          · have hr := scrapeWithRetries_hit1 h0 h1
            simp only [scrapeModesGo, attemptScrapeWithMode, hc, if_true, hr,
              extractCardDetails, List.map_cons, List.map_nil, modeSchedule]
            exact ⟨(m, true) :: rest.flatMap (modeSchedule env), rfl⟩
        · have hr := scrapeWithRetries_hit0 h0
          simp only [scrapeModesGo, attemptScrapeWithMode, hc, if_true, hr,
            extractCardDetails, List.map_cons, List.map_nil, modeSchedule]
          exact ⟨(m, false) :: (m, true) :: (m, true) :: rest.flatMap (modeSchedule env), rfl⟩
      · rw [Bool.not_eq_true] at hc
        simp only [scrapeModesGo, attemptScrapeWithMode, hc, Bool.false_eq_true, if_false,
          List.map_nil, List.nil_append, modeSchedule, List.nil_append]
        exact ih

theorem scrapeModesGo_expanded_needs_shallow_miss (env : String → ModeEnv) (p : Page) :
    ∀ (ms : List String) (m : String),
      (m, true) ∈ (scrapeModesGo env p ms).1 → (env m).attempt false = none := by
  intro ms
  induction ms with
  | nil => intro m h; simp [scrapeModesGo] at h
  | cons m₀ rest ih =>
      intro m h
      by_cases hc : (env m₀).connOK
      · rcases h0 : (env m₀).attempt false with _ | o₀
        · rcases h1 : (env m₀).attempt true with _ | o₁
          · have hr := scrapeWithRetries_miss h0 h1
            simp only [scrapeModesGo, attemptScrapeWithMode, hc, if_true, hr,
              List.map_cons, List.map_nil] at h
            rcases List.mem_append.mp h with hseg | hmem
            · simp only [List.mem_cons, List.not_mem_nil, or_false] at hseg
              rcases hseg with h' | h' | h' | h' <;>
                · injection h' with h₁ h₂
                  subst h₁
                  exact h0
            · exact ih m hmem
          · have hr := scrapeWithRetries_hit1 h0 h1
            simp only [scrapeModesGo, attemptScrapeWithMode, hc, if_true, hr,
              extractCardDetails, List.map_cons, List.map_nil] at h
            simp only [List.mem_cons, List.not_mem_nil, or_false] at h
            rcases h with h' | h' | h' <;>
              · injection h' with h₁ h₂
                subst h₁
                exact h0
        · have hr := scrapeWithRetries_hit0 h0
          simp only [scrapeModesGo, attemptScrapeWithMode, hc, if_true, hr,
            extractCardDetails, List.map_cons, List.map_nil] at h
          simp only [List.mem_cons, List.not_mem_nil, or_false] at h
          injection h with h₁ h₂
          exact absurd h₂ (by decide)
      · rw [Bool.not_eq_true] at hc
        simp only [scrapeModesGo, attemptScrapeWithMode, hc, Bool.false_eq_true, if_false,
          List.map_nil, List.nil_append] at h
        exact ih m h

theorem scrapeModesGo_ok (env : String → ModeEnv) (p : Page) :
    ∀ (ms : List String) (i : ScrapedCardInfo),
      (scrapeModesGo env p ms).2 = Except.ok i →
      ∃ pre m d o, (scrapeModesGo env p ms).1 = pre ++ [(m, d)] ∧
        (env m).attempt d = some o ∧
        ∀ x ∈ pre, (env x.1).attempt x.2 = none := by
  intro ms
  induction ms with
  | nil => intro i h; exact absurd h (by simp [scrapeModesGo])
  | cons m₀ rest ih =>
      intro i h
      by_cases hc : (env m₀).connOK
      · rcases h0 : (env m₀).attempt false with _ | o₀
        · rcases h1 : (env m₀).attempt true with _ | o₁
          · have hr := scrapeWithRetries_miss h0 h1
            simp only [scrapeModesGo, attemptScrapeWithMode, hc, if_true, hr,
              List.map_cons, List.map_nil] at h ⊢
            obtain ⟨pre, m, d, o, htr, hat, hpre⟩ := ih i h
            refine ⟨[(m₀, false), (m₀, false), (m₀, true), (m₀, true)] ++ pre,
              m, d, o, ?_, hat, ?_⟩
            · rw [htr]
              simp [List.append_assoc]
            · intro x hx
              rcases List.mem_append.mp hx with hseg | hpre'
              · simp only [List.mem_cons, List.not_mem_nil, or_false] at hseg
                rcases hseg with rfl | rfl | rfl | rfl
                · exact h0
                · exact h0
                · exact h1
                · exact h1
              · exact hpre x hpre'
          · have hr := scrapeWithRetries_hit1 h0 h1
            simp only [scrapeModesGo, attemptScrapeWithMode, hc, if_true, hr,
              extractCardDetails, List.map_cons, List.map_nil] at h ⊢
            refine ⟨[(m₀, false), (m₀, false)], m₀, true, o₁, by simp, h1, ?_⟩
            intro x hx
            simp only [List.mem_cons, List.not_mem_nil, or_false] at hx
            rcases hx with rfl | rfl
            · exact h0
            · exact h0
        · have hr := scrapeWithRetries_hit0 h0
          simp only [scrapeModesGo, attemptScrapeWithMode, hc, if_true, hr,
            extractCardDetails, List.map_cons, List.map_nil] at h ⊢
          exact ⟨[], m₀, false, o₀, by simp, h0, by simp⟩
      · rw [Bool.not_eq_true] at hc
        simp only [scrapeModesGo, attemptScrapeWithMode, hc, Bool.false_eq_true, if_false,
          List.map_nil, List.nil_append] at h ⊢
        exact ih i h

/-- C6: attempts are made strictly in the configured order: the trace of
(configuration, load-depth) pairs actually attempted is a prefix of the
schedule "configuration profiles outer (secure, permissive, minimal),
load depths inner (shallow, shallow, expanded, expanded)"; an
expanded-depth attempt under a configuration happens only if that
configuration's shallow attempt produced no matching offer; and on a hit
the successful attempt is the last one in the trace (no further pair is
tried) with every earlier attempt a miss.  The standard single-mode path
likewise tries shallow before expanded and expands only on a miss. -/
theorem C6_attempt_ordering :
    (∀ (env : String → ModeEnv) (p : Page),
        (scrapeWithMultipleModes env p).1 <+: fullSchedule env ∧
        (∀ m, (m, true) ∈ (scrapeWithMultipleModes env p).1 →
            (env m).attempt false = none) ∧
        (∀ i, (scrapeWithMultipleModes env p).2 = Except.ok i →
            ∃ pre m d o, (scrapeWithMultipleModes env p).1 = pre ++ [(m, d)] ∧
              (env m).attempt d = some o ∧
              ∀ x ∈ pre, (env x.1).attempt x.2 = none)) ∧
    (∀ (env : StdEnv) (p : Page) (req : AddCardRequest),
        (scrapeWithStandardMode env p req).1 <+: [false, true] ∧
        (true ∈ (scrapeWithStandardMode env p req).1 → env.shallow = none)) := by
  constructor
  · intro env p
    exact ⟨scrapeModesGo_prefixOfSchedule env p windowsModes,
      fun m hm => scrapeModesGo_expanded_needs_shallow_miss env p windowsModes m hm,
      fun i hi => scrapeModesGo_ok env p windowsModes i hi⟩
  · intro env p req
    by_cases hc : env.connOK
    · rcases hs : env.shallow with _ | o₀
      · rcases he : env.expanded with _ | o₁ <;>
          · constructor
            · simp [scrapeWithStandardMode, hc, hs, he]
            · intro _; rfl
      · constructor
        · simp only [scrapeWithStandardMode, hc, if_true, hs]
          exact ⟨[true], rfl⟩
        · intro h
          simp only [scrapeWithStandardMode, hc, if_true, hs, List.mem_cons,
            List.not_mem_nil, or_false] at h
          exact absurd h (by decide)
    · rw [Bool.not_eq_true] at hc
      constructor
      · simp [scrapeWithStandardMode, hc]
      · intro h
        simp [scrapeWithStandardMode, hc] at h

theorem C6_attempt_ordering_witness :
    (scrapeWithMultipleModes c6Env c6Page).1 =
      [("secure", false), ("secure", false), ("secure", true)] ∧
    (c6Env "secure").attempt false = none := by
  have htr : (scrapeWithMultipleModes c6Env c6Page).1 =
      [("secure", false), ("secure", false), ("secure", true)] := by rfl
  refine ⟨htr, ?_⟩
  apply (C6_attempt_ordering.1 c6Env c6Page).2.1 "secure"
  rw [htr]
  decide

theorem C4_exhaustion_error_paths_witness :
    (scrapeWithStandardMode c4StdEnv c4Page c4Req).2 =
      Except.error (noMatchMsg c4Req) ∧
    c4Req.quality.data <:+: (noMatchMsg c4Req).data ∧
    (scrapeWithMultipleModes c4Env c4Page).2 = Except.error modesExhaustedMsg := by
  refine ⟨C4_exhaustion_error_paths.1 c4StdEnv c4Page c4Req rfl rfl rfl,
    (C4_exhaustion_error_paths.2.1 c4Req).1,
    C4_exhaustion_error_paths.2.2 c4Env c4Page (by decide)⟩

theorem moveCard_map_cardURL (db : List Card) (i : ℕ) (t : String) :
    (moveCard db i t).map Card.cardURL = db.map Card.cardURL := by
  unfold moveCard
  rw [List.map_map]
  apply List.map_congr_left
  intro c _
  by_cases h : c.id = i <;> simp [h]

theorem moveCard_length (db : List Card) (i : ℕ) (t : String) :
    (moveCard db i t).length = db.length := by
  simp [moveCard]

/-- C10: when an `AddCard` request's URL is already stored, no scraping
happens and no record is inserted: the store keeps its length and its
URL column unchanged; if the stored card's partition equals the
requested one the call errors and the store is untouched, otherwise the
existing record's partition is updated in place and that card is
returned — and URL uniqueness of the store is preserved, so the store
never acquires two records with the same listing URL. -/
theorem C10_addcard_dedup :
    ∀ (db : List Card) (req : AddCardRequest) (scrape : Option ScrapedCardInfo)
      (newId : ℕ) (existing : Card),
      getCardByURL db req.url = some existing →
      (AddCard db req scrape newId).1 = false ∧
      (AddCard db req scrape newId).2.1.length = db.length ∧
      (AddCard db req scrape newId).2.1.map Card.cardURL = db.map Card.cardURL ∧
      (existing.cardType = req.cardType →
        (AddCard db req scrape newId).2.2 =
          Except.error ("cette carte est déjà dans votre " ++ req.cardType) ∧
        (AddCard db req scrape newId).2.1 = db) ∧
      (existing.cardType ≠ req.cardType →
        (AddCard db req scrape newId).2.2 =
          Except.ok { existing with cardType := req.cardType } ∧
        (AddCard db req scrape newId).2.1 = moveCard db existing.id req.cardType) ∧
      ((db.map Card.cardURL).Nodup →
        ((AddCard db req scrape newId).2.1.map Card.cardURL).Nodup) := by
  intro db req scrape newId existing hfind
  simp only [AddCard, hfind]
  by_cases ht : existing.cardType = req.cardType
  · rw [if_pos ht]
    exact ⟨rfl, rfl, rfl, fun _ => ⟨rfl, rfl⟩, fun h => absurd ht h, fun h => h⟩
  · rw [if_neg ht]
    refine ⟨rfl, moveCard_length db existing.id req.cardType,
      moveCard_map_cardURL db existing.id req.cardType,
      fun h => absurd h ht, fun _ => ⟨rfl, rfl⟩, ?_⟩
    intro hnd
    rwa [moveCard_map_cardURL]

theorem C10_addcard_dedup_witness :
    (AddCard c10Db c10Req none 5).1 = false ∧
    (AddCard c10Db c10Req none 5).2.1.length = c10Db.length ∧
    (AddCard c10Db c10Req none 5).2.2 =
      Except.ok { c10Existing with cardType := "collection" } ∧
    ((AddCard c10Db c10Req none 5).2.1.map Card.cardURL).Nodup := by
  obtain ⟨h1, h2, _, _, h5, h6⟩ :=
    C10_addcard_dedup c10Db c10Req none 5 c10Existing (by decide)
  exact ⟨h1, h2, (h5 (by decide)).1, h6 (by decide)⟩

end CardScraper
